import Mathlib

/-!
Shallow embedding of `src/casadi/interfaces/sundials/idas_interface.cpp`
(the IDAS integrator interface of CasADi).

Times, states and tolerances are modelled over `ℚ`; the external SUNDIALS
engine (IDASolve, IDASolveF, IDASolveB, IDAGetB, IDAGetQuad, ...) is modelled
by its documented contract: an `IDA_NORMAL`-mode step that succeeds returns
with the session's current time equal to the requested target time.  Counters
record which engine entry points each operation invokes, so that "no engine
call is made" becomes a provable statement about the embedded control flow.
-/

namespace IdasModel

/-- A numeric vector (contents of an `N_Vector` / `std::vector<double>`). -/
abbrev Vec := List ℚ

/-! ## Forward integration: `IdasInterface::advance` (lines 412-449) -/

/-- Counters for the engine entry points that `advance` may invoke:
`solve` counts `IDASolve`/`IDASolveF` calls, `quad` counts `IDAGetQuad`
calls, `stats` counts `IDAGetIntegratorStats` calls. -/
structure EngineCalls where
  solve : Nat
  quad : Nat
  stats : Nat
deriving Repr, DecidableEq

/-- The session state that `advance` reads and writes: the current
integration time `m->t` of the `IdasMemory` block. -/
structure FwdState where
  t : ℚ
deriving Repr, DecidableEq

/-- Result of one `advance` call: either an error (a thrown
`casadi_assert_message`) or the updated session state, together with the
engine calls that were made on that path. -/
structure AdvanceRes where
  result : Except String FwdState
  calls : EngineCalls
deriving Repr

/-- The time tolerance `ttol = 1e-9` of `IdasInterface::advance` (line 424). -/
def ttol : ℚ := 1 / 1000000000

/-- `IdasInterface::advance` (lines 412-449).  `t0 = grid_.front()`,
`tf = grid_.back()`.  The two `casadi_assert_message` checks (lines 416-421)
run before any engine call.  The engine step (line 425-437) is guarded by
`fabs(m->t - t) >= ttol`; on that path `IDASolveF` (taping, `nrx_ > 0`) or
`IDASolve` is invoked — both counted by `solve` — and, when `nq_ > 0`,
`IDAGetQuad`.  The engine step is modelled from its contract: in
`IDA_NORMAL` mode a successful call returns with `m->t = t`.  The trailing
`IDAGetIntegratorStats` (line 446) runs on every non-error path. -/
def advance (t0 tf : ℚ) (stop_at_end : Bool) (nq : Nat)
    (s : FwdState) (t : ℚ) : AdvanceRes :=
  if t < t0 then
    ⟨.error "Cannot integrate to a time earlier than t0", ⟨0, 0, 0⟩⟩
  else if tf < t ∧ stop_at_end then
    ⟨.error "Cannot integrate past a time later than tf unless stop_at_end is set to False",
     ⟨0, 0, 0⟩⟩
  else if ttol ≤ |s.t - t| then
    ⟨.ok ⟨t⟩, ⟨1, if 0 < nq then 1 else 0, 1⟩⟩
  else
    ⟨.ok s, ⟨0, 0, 1⟩⟩

/-! ## Jacobian assembly: `getJacF` (lines 872-895) and `getJacB` (lines 897-921)

The symbolic matrices produced by `MatType::jacobian` are external
(ModelEvaluator) outputs; they enter the embedding as abstract matrix
blocks.  The assembly operations `eye`, scalar multiplication, subtraction,
addition, `horzcat` and `vertcat` are embedded with their CasADi meaning. -/

/-- A matrix with explicit dimensions; entries outside the dimensions are
irrelevant. -/
structure Mat where
  rows : Nat
  cols : Nat
  entry : Nat → Nat → ℚ

/-- `MatType::eye(n)`: the `n × n` identity matrix. -/
def eye (n : Nat) : Mat := ⟨n, n, fun i j => if i = j then 1 else 0⟩

/-- Scalar multiple `c * A` (as in `cj * MatType::eye(nx_)`). -/
def smul (c : ℚ) (A : Mat) : Mat := ⟨A.rows, A.cols, fun i j => c * A.entry i j⟩

/-- Matrix difference `A - B`. -/
def msub (A B : Mat) : Mat := ⟨A.rows, A.cols, fun i j => A.entry i j - B.entry i j⟩

/-- Matrix sum `A + B`. -/
def madd (A B : Mat) : Mat := ⟨A.rows, A.cols, fun i j => A.entry i j + B.entry i j⟩

/-- `horzcat(A, B)`: columns of `A` followed by columns of `B`. -/
def horzcat (A B : Mat) : Mat :=
  ⟨A.rows, A.cols + B.cols,
   fun i j => if j < A.cols then A.entry i j else B.entry i (j - A.cols)⟩

/-- `vertcat(A, B)`: rows of `A` followed by rows of `B`. -/
def vertcat (A B : Mat) : Mat :=
  ⟨A.rows + B.rows, A.cols,
   fun i j => if i < A.rows then A.entry i j else B.entry (i - A.rows) j⟩

/-- `IdasInterface::getJacF` (lines 872-895), Jacobian expression assembly:
`jac = jacobian(ode, x) - cj*eye(nx)`, and when `nz > 0`,
`jac = horzcat(vertcat(jac, jacobian(alg, x)), vertcat(jacobian(ode, z),
jacobian(alg, z)))`.  The partial-derivative blocks `jacOdeX` (`nx × nx`),
`jacAlgX` (`nz × nx`), `jacOdeZ` (`nx × nz`), `jacAlgZ` (`nz × nz`) are the
external symbolic Jacobians.  The sparsity projection applied only in the
sensitivity-augmented case (`ns_ > 0`, lines 887-891) is outside this
fragment. -/
def getJacF (nx nz : Nat) (cj : ℚ) (jacOdeX jacAlgX jacOdeZ jacAlgZ : Mat) : Mat :=
  let jac := msub jacOdeX (smul cj (eye nx))
  if 0 < nz then
    horzcat (vertcat jac jacAlgX) (vertcat jacOdeZ jacAlgZ)
  else jac

/-- `IdasInterface::getJacB` (lines 897-921), backward Jacobian assembly:
`jac = jacobian(rode, rx) + cj*eye(nrx)`, and when `nrz > 0`,
`jac = horzcat(vertcat(jac, jacobian(ralg, rx)), vertcat(jacobian(rode, rz),
jacobian(ralg, rz)))`.  The sparsity projection of the sensitivity-augmented
case (lines 912-916) is outside this fragment. -/
def getJacB (nrx nrz : Nat) (cj : ℚ)
    (jacRodeRx jacRalgRx jacRodeRz jacRalgRz : Mat) : Mat :=
  let jac := madd jacRodeRx (smul cj (eye nrx))
  if 0 < nrz then
    horzcat (vertcat jac jacRalgRx) (vertcat jacRodeRz jacRalgRz)
  else jac

/-! ## Direct linear solve hooks: `lsolve` (lines 789-822) and `lsolveB`
(lines 824-870)

The in-place solve of the factorized system (`psolve` line 805, `psolveB`
line 855, both delegating to the external `linsol_solve`) enters the
embedding as an abstract solve function; for the backward hook that
function also closes over the interpolated forward trajectory fetched on
lines 845-849.  What the hooks add around it is the `cj` correction
rescaling of lines 808-812 / 858-861. -/

/-- `IdasInterface::lsolve`: solve the linear system for `b`, then, when
`cj_scaling_` is set and `cjratio != 1.0`, rescale the correction by
`2.0/(1.0 + cjratio)` (`N_VScale`). -/
def lsolve (cj_scaling : Bool) (cjr : ℚ) (psolveFn : Vec → Vec) (b : Vec) : Vec :=
  let b1 := psolveFn b
  if cj_scaling then
    if cjr ≠ 1 then b1.map (fun v => 2 / (1 + cjr) * v) else b1
  else b1

/-- `IdasInterface::lsolveB`: identical correction rescaling on the backward
linear solve (lines 858-861). -/
def lsolveB (cj_scaling : Bool) (cjr : ℚ) (psolveBFn : Vec → Vec) (b : Vec) : Vec :=
  let b1 := psolveBFn b
  if cj_scaling then
    if cjr ≠ 1 then b1.map (fun v => 2 / (1 + cjr) * v) else b1
  else b1

/-! ## Callback error signalling (`res` 181-203, `jtimes` 216-240,
`rhsQ` 563-580, `psetup` 683-707, `psolve` 640-659, `lsolve` 789-822,
`lsolveB` 824-870)

Each solver-invoked callback wraps its body in `try/catch`; the embedding
records, per possible body outcome, the return code handed to IDAS and
whether diagnostic text was printed. -/

/-- Outcome of a callback body: normal completion, a thrown C++ `int`
(the recoverable-error signalling convention), or any other thrown
exception carrying a message. -/
inductive CbOutcome where
  | ok
  | thrownInt (flag : Int)
  | thrownExc (msg : String)

/-- What a callback hands back to the solver.  `code = none` models an
exception that no `catch` clause of the callback matches, so that it
escapes the C callback boundary unhandled; `diag` records whether
diagnostic text was emitted before returning. -/
structure CbReturn where
  code : Option Int
  diag : Bool
deriving Repr, DecidableEq

/-- `IdasInterface::res` (lines 181-203): `catch(int flag)` returns the
thrown integer unchanged (line 197-198); `catch(exception&)` prints
"res failed" and returns `-1` (lines 199-201). -/
def res_return : CbOutcome → CbReturn
  | .ok => ⟨some 0, false⟩
  | .thrownInt flag => ⟨some flag, false⟩
  | .thrownExc _ => ⟨some (-1), true⟩

/-- `IdasInterface::jtimes` (lines 216-240): the only handler is
`catch(exception&)`, which prints "jtimes failed" and returns `1`
(lines 236-239); a thrown `int` is not caught. -/
def jtimes_return : CbOutcome → CbReturn
  | .ok => ⟨some 0, false⟩
  | .thrownInt _ => ⟨none, false⟩
  | .thrownExc _ => ⟨some 1, true⟩

/-- `IdasInterface::rhsQ` (lines 563-580): the only handler is
`catch(exception&)`, which prints "rhsQ failed" and returns `1`
(lines 576-579); a thrown `int` is not caught. -/
def rhsQ_return : CbOutcome → CbReturn
  | .ok => ⟨some 0, false⟩
  | .thrownInt _ => ⟨none, false⟩
  | .thrownExc _ => ⟨some 1, true⟩

/-- `IdasInterface::psetup` (lines 683-707): `catch(exception&)` prints and
returns `1` (lines 703-706); a thrown `int` is not caught. -/
def psetup_return : CbOutcome → CbReturn
  | .ok => ⟨some 0, false⟩
  | .thrownInt _ => ⟨none, false⟩
  | .thrownExc _ => ⟨some 1, true⟩

/-- `IdasInterface::psolve` (lines 640-659): `catch(exception&)` prints and
returns `1` (lines 655-658); a thrown `int` is not caught. -/
def psolve_return : CbOutcome → CbReturn
  | .ok => ⟨some 0, false⟩
  | .thrownInt _ => ⟨none, false⟩
  | .thrownExc _ => ⟨some 1, true⟩

/-- Error handling of `IdasInterface::lsolve` (lines 815-821): `catch(int)`
returns the thrown integer unchanged, `catch(exception&)` prints
"lsolve failed" and returns `-1`. -/
def lsolve_hook_return : CbOutcome → CbReturn
  | .ok => ⟨some 0, false⟩
  | .thrownInt flag => ⟨some flag, false⟩
  | .thrownExc _ => ⟨some (-1), true⟩

/-- Error handling of `IdasInterface::lsolveB` (lines 863-869), identical
to the forward hook. -/
def lsolveB_hook_return : CbOutcome → CbReturn
  | .ok => ⟨some 0, false⟩
  | .thrownInt flag => ⟨some flag, false⟩
  | .thrownExc _ => ⟨some (-1), true⟩

/-! ## Status-code translation: `idas_error` (lines 551-561) -/

/-- The SUNDIALS success code `IDA_SUCCESS = 0`; codes `>= IDA_SUCCESS` are
success or informational. -/
def IDA_SUCCESS : Int := 0

/-- `IdasInterface::idas_error` (lines 551-561): a flag `>= IDA_SUCCESS`
returns without effect; a negative flag raises `casadi_error` with a
message built from the call-site module name and the engine's symbolic
flag name.  `flagName` stands for the external `IDAGetReturnFlagName`. -/
def idas_error (flagName : Int → String) (md : String) (flag : Int) :
    Except String Unit :=
  if IDA_SUCCESS ≤ flag then .ok ()
  else .error (md ++ " returned \"" ++ flagName flag ++
    "\". Consult IDAS documentation.")

/-! ## Option validation: `init` (lines 95-179) and the tolerance setting of
`init_memory` (lines 305-314) -/

/-- The IDAS-specific vector options read by `IdasInterface::init`;
`none` models absence of the key from the options dict.  (The member
variables `init_xdot_` and `abstolv_` start out as empty vectors, so a
present key assigns its value and an absent key leaves the empty
default.) -/
structure IdasOptions where
  init_xdot : Option Vec
  abstolv : Option Vec

/-- The option state after `IdasInterface::init`. -/
structure InitConfig where
  init_xdot : Vec
  abstolv : Vec
deriving Repr, DecidableEq

/-- The validation performed by `IdasInterface::init` on its vector options:
lines 153-164 default an *empty* `init_xdot_` to `nx` zeros and otherwise
require length exactly `nx` (`casadi_assert_message`); `abstolv_` is stored
on line 120 with no check anywhere in `init`. -/
def idas_init (nx : Nat) (opts : IdasOptions) : Except String InitConfig :=
  let xdot := opts.init_xdot.getD []
  let av := opts.abstolv.getD []
  if xdot.isEmpty then .ok ⟨List.replicate nx 0, av⟩
  else if xdot.length = nx then .ok ⟨xdot, av⟩
  else .error "Option init_xdot has incorrect length"

/-- The tolerance call `init_memory` makes into the engine. -/
inductive TolSetting where
  | scalar (reltol abstol : ℚ)
  | vector (reltol : ℚ) (abstol : Vec)
deriving Repr, DecidableEq

/-- Lines 305-314 of `IdasInterface::init_memory`: when `abstolv_` is
nonempty, an `N_Vector` of length `abstolv_.size()` is filled with it and
passed to `IDASVtolerances`; otherwise scalar tolerances go to
`IDASStolerances`.  No length comparison against `nx+nz` occurs. -/
def init_memory_tolerances (reltol abstol : ℚ) (cfg : InitConfig) : TolSetting :=
  if ¬ cfg.abstolv.isEmpty then .vector reltol cfg.abstolv
  else .scalar reltol abstol

/-! ## Backward integration: `retreat` (lines 524-549) -/

/-- Counters for the engine entry points `retreat` may invoke:
`IDASolveB`, `IDAGetB`, `IDAGetQuadB`. -/
structure BackCalls where
  solveB : Nat
  getB : Nat
  getQuadB : Nat
deriving Repr, DecidableEq

/-- `IdasInterface::retreat` (lines 524-549): only when `t < m->t` does it
invoke `IDASolveB`, `IDAGetB` and — when `nrq_ > 0` — `IDAGetQuadB`
(lines 529-535).  The engine step is modelled from its contract: the
`IDA_NORMAL`-mode backward solve reaches the requested time, so `IDAGetB`
stores `t` into `m->t`.  The trailing backward
`IDAGetIntegratorStats` (lines 543-548) is unconditional diagnostics and is
not counted. -/
def retreat (nrq : Nat) (s : FwdState) (t : ℚ) : FwdState × BackCalls :=
  if t < s.t then
    (⟨t⟩, ⟨1, 1, if 0 < nrq then 1 else 0⟩)
  else (s, ⟨0, 0, 0⟩)

/-! ## Backward quadrature negation: `rhsQB` (lines 608-631) -/

/-- `casadi_scal(n, alpha, x)`: scale the first `n` entries of `x` in
place. -/
def casadi_scal : Nat → ℚ → Vec → Vec
  | _, _, [] => []
  | 0, _, x => x
  | n + 1, alpha, v :: x => (alpha * v) :: casadi_scal n alpha x

/-- `IdasInterface::rhsQB` (lines 608-631), success path: the backward
quadrature output written into `rqdot` by the external `quadB` evaluation
(the `nrq` values of `rquad(rx, rz, rp, x, z, p, t)`) is negated in place
by `casadi_scal(s.nrq_, -1., NV_DATA_S(rqdot))` before the callback
returns `0`. -/
def rhsQB (nrq : Nat) (quadOut : Vec) : Vec := casadi_scal nrq (-1) quadOut

end IdasModel

namespace IdasModel

/-- C1: For every valid session, calling `advance` twice in immediate
succession with the same target time `t` performs the engine step at most
once: when the session's current time already equals `t` within absolute
tolerance `1e-9`, no solver call (`IDASolve`/`IDASolveF`) and no quadrature
retrieval is made, making the second call a no-op with respect to the
engine. -/
theorem advance_idempotent_at_fixed_time (t0 tf t : ℚ) (sae : Bool) (nq : Nat)
    (s s1 : FwdState) (h : (advance t0 tf sae nq s t).result = .ok s1) :
    ((advance t0 tf sae nq s1 t).calls.solve = 0 ∧
      (advance t0 tf sae nq s1 t).calls.quad = 0) ∧
    (advance t0 tf sae nq s t).calls.solve +
      (advance t0 tf sae nq s1 t).calls.solve ≤ 1 ∧
    (|s.t - t| < ttol →
      (advance t0 tf sae nq s t).calls.solve = 0 ∧
      (advance t0 tf sae nq s t).calls.quad = 0) := by
  have hpos : (0 : ℚ) < ttol := by norm_num [ttol]
  by_cases h1 : t < t0
  · simp [advance, h1] at h
  by_cases h2 : tf < t ∧ sae
  · simp [advance, h1, h2] at h
  by_cases h3 : ttol ≤ |s.t - t|
  · obtain rfl : ({ t := t } : FwdState) = s1 := by simpa [advance, h1, h2, h3] using h
    have hguard : ¬ ttol ≤ |t - t| := by simpa using hpos
    refine ⟨?_, ?_, ?_⟩
    · simp [advance, h1, h2, hguard, not_le.mpr hpos]
    · simp [advance, h1, h2, h3, hguard, not_le.mpr hpos]
    · intro hlt; exact absurd h3 (not_le.mpr hlt)
  · obtain rfl : s = s1 := by simpa [advance, h1, h2, h3] using h
    refine ⟨?_, ?_, ?_⟩ <;> simp [advance, h1, h2, h3]

/-- Witness for `advance_idempotent_at_fixed_time` at a concrete input. -/
theorem advance_idempotent_at_fixed_time_witness :
    (advance 0 10 true 1 ⟨0⟩ 5).result = .ok ⟨5⟩ ∧
    (advance 0 10 true 1 ⟨5⟩ 5).calls.solve = 0 ∧
    (advance 0 10 true 1 ⟨5⟩ 5).calls.quad = 0 := by
  have hok : (advance 0 10 true 1 ⟨0⟩ 5).result = .ok ⟨5⟩ := by
    norm_num [advance, ttol]
  have h := advance_idempotent_at_fixed_time 0 10 5 true 1 ⟨0⟩ ⟨5⟩ hok
  exact ⟨hok, h.1⟩

/-- C2: `advance` with target time `t` strictly earlier than the start time
`t0` fails with a time-ordering error, and with `t` strictly later than the
final time `tf` it fails unless `stop_at_end` is set to false; in both cases
the check occurs before any call into the external engine (zero engine
calls on the error paths). -/
theorem advance_time_ordering_checks (t0 tf t : ℚ) (sae : Bool) (nq : Nat)
    (s : FwdState) :
    (t < t0 →
      (advance t0 tf sae nq s t).result =
        .error "Cannot integrate to a time earlier than t0" ∧
      (advance t0 tf sae nq s t).calls = ⟨0, 0, 0⟩) ∧
    (tf < t → sae = true →
      (∃ msg, (advance t0 tf sae nq s t).result = .error msg) ∧
      (advance t0 tf sae nq s t).calls = ⟨0, 0, 0⟩) ∧
    (t0 ≤ t → tf < t → sae = false →
      ∃ s1, (advance t0 tf sae nq s t).result = .ok s1) := by
  refine ⟨fun h1 => by simp [advance, h1], fun hf hs => ?_, fun h0 hf hs => ?_⟩
  · by_cases h1 : t < t0
    · simp [advance, h1]
    · simp [advance, h1, hf, hs]
  · have h1 : ¬ t < t0 := not_lt.mpr h0
    by_cases h3 : ttol ≤ |s.t - t|
    · exact ⟨⟨t⟩, by simp [advance, h1, hs, h3]⟩
    · exact ⟨s, by simp [advance, h1, hs, h3]⟩

/-- Witness for `advance_time_ordering_checks` at concrete inputs. -/
theorem advance_time_ordering_checks_witness :
    ((advance 0 10 true 2 ⟨0⟩ (-1)).result =
        .error "Cannot integrate to a time earlier than t0" ∧
      (advance 0 10 true 2 ⟨0⟩ (-1)).calls = ⟨0, 0, 0⟩) ∧
    ((∃ msg, (advance 0 10 true 2 ⟨0⟩ 11).result = .error msg) ∧
      (advance 0 10 true 2 ⟨0⟩ 11).calls = ⟨0, 0, 0⟩) ∧
    (∃ s1, (advance 0 10 false 2 ⟨0⟩ 11).result = .ok s1) := by
  refine ⟨(advance_time_ordering_checks 0 10 (-1) true 2 ⟨0⟩).1 (by norm_num),
    (advance_time_ordering_checks 0 10 11 true 2 ⟨0⟩).2.1 (by norm_num) rfl,
    (advance_time_ordering_checks 0 10 11 false 2 ⟨0⟩).2.2 (by norm_num)
      (by norm_num) rfl⟩

/-- C3: The direct-path forward Jacobian equals `∂ode/∂x - cj·I` on the
differential block, the backward Jacobian uses the opposite sign
(`∂rode/∂rx + cj·I`); and whenever algebraic variables are present
(`nz > 0` forward, `nrz > 0` backward) the full Jacobian is the
horizontal/vertical concatenation of the four partial-derivative blocks:
`[[∂ode/∂x - cj·I, ∂ode/∂z], [∂alg/∂x, ∂alg/∂z]]`, respectively
`[[∂rode/∂rx + cj·I, ∂rode/∂rz], [∂ralg/∂rx, ∂ralg/∂rz]]`. -/
theorem getJacF_getJacB_block_structure (nx nz nrx nrz : Nat) (cj : ℚ)
    (A C B D RA RC RB RD : Mat)
    (hAr : A.rows = nx) (hAc : A.cols = nx) (hBr : B.rows = nx)
    (hRAr : RA.rows = nrx) (hRAc : RA.cols = nrx) (hRBr : RB.rows = nrx) :
    (∀ i j, i < nx → j < nx →
      (getJacF nx nz cj A C B D).entry i j =
        A.entry i j - cj * (if i = j then 1 else 0)) ∧
    (0 < nz → ∀ i j,
      (i < nx → nx ≤ j →
        (getJacF nx nz cj A C B D).entry i j = B.entry i (j - nx)) ∧
      (nx ≤ i → j < nx →
        (getJacF nx nz cj A C B D).entry i j = C.entry (i - nx) j) ∧
      (nx ≤ i → nx ≤ j →
        (getJacF nx nz cj A C B D).entry i j = D.entry (i - nx) (j - nx))) ∧
    (∀ i j, i < nrx → j < nrx →
      (getJacB nrx nrz cj RA RC RB RD).entry i j =
        RA.entry i j + cj * (if i = j then 1 else 0)) ∧
    (0 < nrz → ∀ i j,
      (i < nrx → nrx ≤ j →
        (getJacB nrx nrz cj RA RC RB RD).entry i j = RB.entry i (j - nrx)) ∧
      (nrx ≤ i → j < nrx →
        (getJacB nrx nrz cj RA RC RB RD).entry i j = RC.entry (i - nrx) j) ∧
      (nrx ≤ i → nrx ≤ j →
        (getJacB nrx nrz cj RA RC RB RD).entry i j =
          RD.entry (i - nrx) (j - nrx))) := by
  refine ⟨fun i j hi hj => ?_, fun hnz i j => ?_, fun i j hi hj => ?_,
    fun hnrz i j => ?_⟩
  · by_cases hnz : 0 < nz <;>
      simp [getJacF, horzcat, vertcat, msub, smul, eye, hAr, hAc, hi, hj, hnz]
  · refine ⟨fun hi hj => ?_, fun hi hj => ?_, fun hi hj => ?_⟩ <;>
      simp [getJacF, horzcat, vertcat, msub, smul, eye, hAr, hAc, hBr, hnz,
        hi, hj, not_lt.mpr hi, not_lt.mpr hj]
  · by_cases hnrz : 0 < nrz <;>
      simp [getJacB, horzcat, vertcat, madd, smul, eye, hRAr, hRAc, hi, hj, hnrz]
  · refine ⟨fun hi hj => ?_, fun hi hj => ?_, fun hi hj => ?_⟩ <;>
      simp [getJacB, horzcat, vertcat, madd, smul, eye, hRAr, hRAc, hRBr, hnrz,
        hi, hj, not_lt.mpr hi, not_lt.mpr hj]

/-- Witness for `getJacF_getJacB_block_structure`: concrete `1+1`-dimensional
forward and backward systems with constant blocks. -/
theorem getJacF_getJacB_block_structure_witness :
    (getJacF 1 1 2 ⟨1, 1, fun _ _ => 5⟩ ⟨1, 1, fun _ _ => 7⟩
        ⟨1, 1, fun _ _ => 11⟩ ⟨1, 1, fun _ _ => 13⟩).entry 0 0 = 5 - 2 * 1 ∧
    (getJacB 1 1 3 ⟨1, 1, fun _ _ => 5⟩ ⟨1, 1, fun _ _ => 7⟩
        ⟨1, 1, fun _ _ => 11⟩ ⟨1, 1, fun _ _ => 13⟩).entry 0 1 = 11 := by
  have h := getJacF_getJacB_block_structure 1 1 1 1 2
    ⟨1, 1, fun _ _ => 5⟩ ⟨1, 1, fun _ _ => 7⟩ ⟨1, 1, fun _ _ => 11⟩
    ⟨1, 1, fun _ _ => 13⟩ ⟨1, 1, fun _ _ => 5⟩ ⟨1, 1, fun _ _ => 7⟩
    ⟨1, 1, fun _ _ => 11⟩ ⟨1, 1, fun _ _ => 13⟩ rfl rfl rfl rfl rfl rfl
  have h2 := getJacF_getJacB_block_structure 1 1 1 1 3
    ⟨1, 1, fun _ _ => 5⟩ ⟨1, 1, fun _ _ => 7⟩ ⟨1, 1, fun _ _ => 11⟩
    ⟨1, 1, fun _ _ => 13⟩ ⟨1, 1, fun _ _ => 5⟩ ⟨1, 1, fun _ _ => 7⟩
    ⟨1, 1, fun _ _ => 11⟩ ⟨1, 1, fun _ _ => 13⟩ rfl rfl rfl rfl rfl rfl
  refine ⟨?_, ?_⟩
  · have := h.1 0 0 (by norm_num) (by norm_num)
    simpa using this
  · have := (h2.2.2.2 (by norm_num) 0 1).1 (by norm_num) (by norm_num)
    simpa using this

/-- C4: In the direct linear-solve path (forward `lsolve` and backward
`lsolveB`), when `cj_scaling` is enabled and `cjratio ≠ 1`, the correction
vector returned by the linear solve is rescaled by exactly
`2/(1+cjratio)`; when `cj_scaling` is disabled, or when `cjratio = 1`, the
correction vector is not rescaled. -/
theorem lsolve_cj_scaling (cjs : Bool) (cjr : ℚ) (f g : Vec → Vec) (b : Vec) :
    (cjs = true → cjr ≠ 1 →
      lsolve cjs cjr f b = (f b).map (fun v => 2 / (1 + cjr) * v) ∧
      lsolveB cjs cjr g b = (g b).map (fun v => 2 / (1 + cjr) * v)) ∧
    (cjs = false → lsolve cjs cjr f b = f b ∧ lsolveB cjs cjr g b = g b) ∧
    (cjr = 1 → lsolve cjs cjr f b = f b ∧ lsolveB cjs cjr g b = g b) := by
  refine ⟨fun hs hr => ?_, fun hs => ?_, fun hr => ?_⟩
  · simp [lsolve, lsolveB, hs, hr]
  · simp [lsolve, lsolveB, hs]
  · simp [lsolve, lsolveB, hr]

/-- Witness for `lsolve_cj_scaling` at concrete inputs: with `cj_scaling`
on and `cjratio = 3` the solved vector `[4]` becomes `[2/(1+3)·4] = [2]`;
with it off, it stays `[4]`. -/
theorem lsolve_cj_scaling_witness :
    lsolve true 3 id [(4 : ℚ)] = [2] ∧ lsolveB true 3 id [(4 : ℚ)] = [2] ∧
    lsolve false 3 id [(4 : ℚ)] = [4] ∧ lsolve true 1 id [(4 : ℚ)] = [4] := by
  have h1 := (lsolve_cj_scaling true 3 id id [(4 : ℚ)]).1 rfl (by norm_num)
  have h2 := (lsolve_cj_scaling false 3 id id [(4 : ℚ)]).2.1 rfl
  have h3 := (lsolve_cj_scaling true 1 id id [(4 : ℚ)]).2.2 rfl
  refine ⟨?_, ?_, ?_, ?_⟩
  · rw [h1.1]; norm_num
  · rw [h1.2]; norm_num
  · exact h2.1
  · exact h3.1

/-- C5 counterexample: the claim says that in every solver-invoked callback
a thrown non-integer failure is reported as a *negative* return code; but
the Jacobian-vector-product callback `jtimes` and the quadrature
right-hand-side callback `rhsQ` report it as `1`, a positive (recoverable)
code, and a thrown integer inside them is not caught at all. -/
theorem callback_negative_code_counterexample :
    jtimes_return (.thrownExc "fail") = ⟨some 1, true⟩ ∧
    rhsQ_return (.thrownExc "fail") = ⟨some 1, true⟩ ∧
    jtimes_return (.thrownInt 1) = ⟨none, false⟩ ∧
    ¬ (1 : Int) < 0 := ⟨rfl, rfl, rfl, by norm_num⟩

/-- C5 (amended): the residual callback `res` returns a thrown integer to
the solver unchanged and reports any other failure as `-1` after emitting
diagnostic text; the Jacobian-vector-product (`jtimes`), quadrature
right-hand-side (`rhsQ`) and preconditioner setup/solve (`psetup`,
`psolve`) callbacks do not catch thrown integers and report any other
failure as the positive (recoverable) code `1` after emitting diagnostic
text; the low-level linear-solve hooks (`lsolve`, `lsolveB`) return a
thrown integer unchanged and report other failures as `-1` after emitting
diagnostic text. -/
theorem callback_error_signalling (flag : Int) (msg : String) :
    (res_return CbOutcome.ok = ⟨some 0, false⟩ ∧
      res_return (.thrownInt flag) = ⟨some flag, false⟩ ∧
      res_return (.thrownExc msg) = ⟨some (-1), true⟩) ∧
    (jtimes_return (.thrownInt flag) = ⟨none, false⟩ ∧
      jtimes_return (.thrownExc msg) = ⟨some 1, true⟩) ∧
    (rhsQ_return (.thrownInt flag) = ⟨none, false⟩ ∧
      rhsQ_return (.thrownExc msg) = ⟨some 1, true⟩) ∧
    (psetup_return (.thrownInt flag) = ⟨none, false⟩ ∧
      psetup_return (.thrownExc msg) = ⟨some 1, true⟩) ∧
    (psolve_return (.thrownInt flag) = ⟨none, false⟩ ∧
      psolve_return (.thrownExc msg) = ⟨some 1, true⟩) ∧
    (lsolve_hook_return (.thrownInt flag) = ⟨some flag, false⟩ ∧
      lsolve_hook_return (.thrownExc msg) = ⟨some (-1), true⟩ ∧
      lsolveB_hook_return (.thrownInt flag) = ⟨some flag, false⟩ ∧
      lsolveB_hook_return (.thrownExc msg) = ⟨some (-1), true⟩) ∧
    (0 : Int) < 1 :=
  ⟨⟨rfl, rfl, rfl⟩, ⟨rfl, rfl⟩, ⟨rfl, rfl⟩, ⟨rfl, rfl⟩, ⟨rfl, rfl⟩,
    ⟨rfl, rfl, rfl, rfl⟩, by norm_num⟩

/-- C6: every wrapped call into the external solver treats a non-negative
return code as success (`idas_error` returns without effect), and every
negative return code raises a fatal error whose message carries the
originating call-site module name (as a prefix) and the engine's symbolic
flag name (as a substring). -/
theorem idas_error_translation (flagName : Int → String) (md : String)
    (flag : Int) :
    (0 ≤ flag → idas_error flagName md flag = .ok ()) ∧
    (flag < 0 → ∃ msg, idas_error flagName md flag = .error msg ∧
      md.data <+: msg.data ∧ (flagName flag).data <:+: msg.data) := by
  constructor
  · intro h
    simp [idas_error, IDA_SUCCESS, h]
  · intro h
    have hneg : ¬ IDA_SUCCESS ≤ flag := by
      simp only [IDA_SUCCESS, not_le]; exact h
    refine ⟨md ++ " returned \"" ++ flagName flag ++
      "\". Consult IDAS documentation.", by simp [idas_error, hneg], ?_, ?_⟩
    · exact ⟨(" returned \"" ++ flagName flag ++
        "\". Consult IDAS documentation.").data,
        by simp [String.data_append]⟩
    · exact ⟨(md ++ " returned \"").data, "\". Consult IDAS documentation.".data,
        by simp [String.data_append]⟩

/-- Witness for `idas_error_translation`: the informational code `2` is
passed through, the failure code `-1` raises an error naming the module
and the flag. -/
theorem idas_error_translation_witness :
    idas_error (fun _ => "IDA_MEM_NULL") "IDASolve" 2 = .ok () ∧
    ∃ msg, idas_error (fun _ => "IDA_MEM_NULL") "IDASolve" (-1) = .error msg ∧
      "IDASolve".data <+: msg.data ∧ "IDA_MEM_NULL".data <:+: msg.data :=
  ⟨(idas_error_translation (fun _ => "IDA_MEM_NULL") "IDASolve" 2).1
      (by norm_num),
    (idas_error_translation (fun _ => "IDA_MEM_NULL") "IDASolve" (-1)).2
      (by norm_num)⟩

/-- C7 counterexample: with `nx + nz = 1` and a supplied `abstolv` of
length `3`, setup succeeds and the mismatched vector is forwarded to the
engine as-is; no configuration error is raised. -/
theorem abstolv_length_mismatch_counterexample :
    idas_init 1 ⟨none, some [1, 1, 1]⟩ = .ok ⟨[0], [1, 1, 1]⟩ ∧
    init_memory_tolerances 1 1 ⟨[0], [1, 1, 1]⟩ = .vector 1 [1, 1, 1] ∧
    [(1 : ℚ), 1, 1].length ≠ 1 := ⟨rfl, rfl, by norm_num⟩

/-- C7 (amended): no length check is applied to `abstolv`: whenever the
`init_xdot` option passes its own check, setup succeeds for an `abstolv`
of any length, the vector is stored unchanged, and `init_memory` passes it
to the engine as the per-component tolerance vector of its own length
(falling back to scalar tolerances when it is empty). -/
theorem abstolv_forwarded_unchecked (nx : Nat) (xdot : Option Vec) (av : Vec)
    (reltol abstol : ℚ)
    (h : xdot.getD [] = [] ∨ (xdot.getD []).length = nx) :
    ∃ cfg, idas_init nx ⟨xdot, some av⟩ = .ok cfg ∧ cfg.abstolv = av ∧
      (av ≠ [] → init_memory_tolerances reltol abstol cfg = .vector reltol av) ∧
      (av = [] →
        init_memory_tolerances reltol abstol cfg = .scalar reltol abstol) := by
  by_cases hx : (xdot.getD []).isEmpty
  · refine ⟨⟨List.replicate nx 0, av⟩, by simp [idas_init, hx], rfl, ?_, ?_⟩
    · intro hav; simp [init_memory_tolerances, hav]
    · intro hav; simp [init_memory_tolerances, hav]
  · have hlen : (xdot.getD []).length = nx := by
      rcases h with h | h
      · exact absurd (by simp [h]) hx
      · exact h
    refine ⟨⟨xdot.getD [], av⟩, by simp [idas_init, hx, hlen], rfl, ?_, ?_⟩
    · intro hav; simp [init_memory_tolerances, hav]
    · intro hav; simp [init_memory_tolerances, hav]

/-- Witness for `abstolv_forwarded_unchecked`: `nx = 1`, no `init_xdot`,
`abstolv = [1/10, 1/10, 1/10]` of mismatched length `3`. -/
theorem abstolv_forwarded_unchecked_witness :
    ∃ cfg, idas_init 1 ⟨none, some [1/10, 1/10, 1/10]⟩ = .ok cfg ∧
      cfg.abstolv = [1/10, 1/10, 1/10] ∧
      ([(1 : ℚ)/10, 1/10, 1/10] ≠ [] →
        init_memory_tolerances 1 (1/100) cfg = .vector 1 [1/10, 1/10, 1/10]) ∧
      ([(1 : ℚ)/10, 1/10, 1/10] = [] →
        init_memory_tolerances 1 (1/100) cfg = .scalar 1 (1/100)) :=
  abstolv_forwarded_unchecked 1 none [1/10, 1/10, 1/10] 1 (1/100) (Or.inl rfl)

/-- C8: `retreat` only performs work — invoking the solver's backward step
(`IDASolveB`) and retrieving backward state (`IDAGetB`) and quadratures
(`IDAGetQuadB`) — if the target time `t` is strictly earlier than the
session's current backward time; otherwise no engine call is made, and the
backward time never increases across `retreat` calls. -/
theorem retreat_monotonic_backward (nrq : Nat) (s : FwdState) (t : ℚ) :
    (s.t ≤ t → retreat nrq s t = (s, ⟨0, 0, 0⟩)) ∧
    (retreat nrq s t).1.t ≤ s.t ∧
    (t < s.t → (retreat nrq s t).1.t = t ∧
      (retreat nrq s t).2 = ⟨1, 1, if 0 < nrq then 1 else 0⟩) := by
  refine ⟨fun h => ?_, ?_, fun h => ?_⟩
  · simp [retreat, not_lt.mpr h]
  · by_cases h : t < s.t
    · simpa [retreat, h] using le_of_lt h
    · simp [retreat, h]
  · simp [retreat, h]

/-- Witness for `retreat_monotonic_backward`: at current backward time `5`,
a request for time `6` is a no-op, a request for time `3` steps back. -/
theorem retreat_monotonic_backward_witness :
    retreat 1 ⟨5⟩ 6 = (⟨5⟩, ⟨0, 0, 0⟩) ∧
    (retreat 1 ⟨5⟩ 3).1.t = 3 ∧ (retreat 1 ⟨5⟩ 3).2 = ⟨1, 1, 1⟩ := by
  have h1 := (retreat_monotonic_backward 1 ⟨5⟩ 6).1 (by norm_num)
  have h2 := (retreat_monotonic_backward 1 ⟨5⟩ 3).2.2 (by norm_num)
  exact ⟨h1, h2.1, by rw [h2.2]; norm_num⟩

/-- C9 counterexample: an `init_xdot` that is supplied but *empty*, with
`nx = 2`, has a length different from `nx` yet is not rejected: it falls
into the empty-default branch and setup succeeds. -/
theorem init_xdot_empty_supplied_counterexample :
    idas_init 2 ⟨some [], none⟩ = .ok ⟨[0, 0], []⟩ ∧
    ([] : Vec).length ≠ 2 := ⟨rfl, by norm_num⟩

/-- C9 (amended): a supplied *nonempty* `init_xdot` whose length differs
from the differential-state count `nx` is rejected at setup with a
configuration error; an absent or empty `init_xdot` defaults to the zero
vector of length `nx`. -/
theorem init_xdot_validation (nx : Nat) (v : Vec) (av : Option Vec) :
    (v ≠ [] → v.length ≠ nx →
      idas_init nx ⟨some v, av⟩ =
        .error "Option init_xdot has incorrect length") ∧
    idas_init nx ⟨none, av⟩ = .ok ⟨List.replicate nx 0, av.getD []⟩ ∧
    idas_init nx ⟨some [], av⟩ = .ok ⟨List.replicate nx 0, av.getD []⟩ ∧
    (v ≠ [] → v.length = nx → idas_init nx ⟨some v, av⟩ = .ok ⟨v, av.getD []⟩) := by
  refine ⟨fun hne hlen => ?_, by simp [idas_init], by simp [idas_init],
    fun hne hlen => ?_⟩
  · simp [idas_init, hne, hlen]
  · simp [idas_init, hne, hlen]

/-- Witness for `init_xdot_validation`: with `nx = 2`, the length-1 vector
`[7]` is rejected, the length-2 vector `[7, 8]` is accepted, and absence
defaults to `[0, 0]`. -/
theorem init_xdot_validation_witness :
    idas_init 2 ⟨some [7], none⟩ =
      .error "Option init_xdot has incorrect length" ∧
    idas_init 2 ⟨none, none⟩ = .ok ⟨[0, 0], []⟩ ∧
    idas_init 2 ⟨some [7, 8], none⟩ = .ok ⟨[7, 8], []⟩ := by
  have h := init_xdot_validation 2 [7] none
  have h2 := init_xdot_validation 2 [7, 8] none
  exact ⟨h.1 (by simp) (by norm_num), h.2.1,
    h2.2.2.2 (by simp) (by norm_num)⟩

/-- `casadi_scal` over the whole vector is a map by the scale factor. -/
theorem casadi_scal_eq_map (alpha : ℚ) :
    ∀ (x : Vec) (n : Nat), x.length ≤ n →
      casadi_scal n alpha x = x.map (fun v => alpha * v)
  | [], n, _ => by cases n <;> rfl
  | v :: x, 0, h => by simp at h
  | v :: x, n + 1, h => by
    simp [casadi_scal, casadi_scal_eq_map alpha x n (by simpa using h)]

/-- C10: on every successful invocation of the backward quadrature
right-hand-side callback `rhsQB`, the returned quadrature-rate vector
equals the negation of the model's backward quadrature output: the `nrq`
components produced by evaluating `rquad` are multiplied by `-1` before
being handed back to the solver. -/
theorem rhsQB_negates_quadrature (nrq : Nat) (quadOut : Vec)
    (h : quadOut.length = nrq) :
    rhsQB nrq quadOut = quadOut.map (fun v => -v) := by
  unfold rhsQB
  rw [casadi_scal_eq_map (-1) quadOut nrq (le_of_eq h)]
  simp

/-- Witness for `rhsQB_negates_quadrature` at a concrete quadrature
output. -/
theorem rhsQB_negates_quadrature_witness :
    rhsQB 2 [3, -4] = [-3, 4] := by
  have h := rhsQB_negates_quadrature 2 [3, -4] rfl
  rw [h]; norm_num

end IdasModel
